import Mathlib

/-!
Verification of the `network` package of the dfs repository.

The repository keeps several historical iterations of the same `P2PNetworking`
component.  The iteration that carries the full design (connection-event peer
registry, parse-failure-tolerant DHT bootstrap, warn-and-continue `Start`,
ordered `Close`) is the one embedded here as `start`, `bootstrapDHT`,
`notifieeConnected`, `notifieeDisconnected`, `getPeers` and `p2pClose`.
The earlier iteration's constructor `NewP2PNetworking` (port option defaulting)
is embedded as `newP2PNetworkingA`.

External libp2p operations (key generation, connection-manager construction,
multiaddr parsing, dialing, DHT bootstrap, host/DHT close) are modelled as an
explicit environment of outcomes; the repository's own control flow over those
outcomes is translated statement by statement.
-/

namespace DFS

/-- Peer identifiers (`peer.ID`), rendered as strings. -/
abbrev PeerID := String

/-- Multiaddresses (`multiaddr.Multiaddr`), rendered as strings. -/
abbrev Multiaddr := String

/-- The fields of `peer.AddrInfo` used by the code: `ID` and `Addrs`. -/
structure AddrInfo where
  ID : PeerID
  Addrs : List Multiaddr
deriving Repr, DecidableEq

/-- The two accessors of `network.Conn` the notifiee handlers call:
`RemotePeer()` and `RemoteMultiaddr()`. -/
structure Conn where
  remotePeer : PeerID
  remoteMultiaddr : Multiaddr
deriving Repr, DecidableEq

/-- The registry field `peers map[peer.ID]peer.AddrInfo`, rendered as an
association list whose keys are kept unique by the two mutators below. -/
abbrev PeerMap := List (PeerID × AddrInfo)

/-- Go map deletion `delete(n.peers, peerID)`. -/
def mapDelete (m : PeerMap) (k : PeerID) : PeerMap :=
  m.filter (fun p => p.1 != k)

/-- Go map assignment `n.peers[peerID] = v`: the binding for `k` is replaced,
all other bindings are kept. -/
def mapInsert (m : PeerMap) (k : PeerID) (v : AddrInfo) : PeerMap :=
  (k, v) :: mapDelete m k

/-- Go map indexing `m[k]` (the present/absent view used by the proofs). -/
def mapLookup (k : PeerID) : PeerMap → Option AddrInfo
  | [] => none
  | p :: rest => if p.1 = k then some p.2 else mapLookup k rest

/-- `networkNotifiee.Connected(net, conn)`: stores
`peer.AddrInfo{ID: peerID, Addrs: []multiaddr.Multiaddr{conn.RemoteMultiaddr()}}`
under `conn.RemotePeer()`.  The `net` argument is received but never consulted,
exactly as in the source. -/
def notifieeConnected (m : PeerMap) (_net : List Conn) (conn : Conn) : PeerMap :=
  mapInsert m conn.remotePeer ⟨conn.remotePeer, [conn.remoteMultiaddr]⟩

/-- `networkNotifiee.Disconnected(net, conn)`: `delete(n.peers, peerID)`,
unconditionally.  The `net` argument (which would expose the remaining live
connections) is received but never consulted, exactly as in the source. -/
def notifieeDisconnected (m : PeerMap) (_net : List Conn) (conn : Conn) : PeerMap :=
  mapDelete m conn.remotePeer

/-- `GetPeers()`: allocates a fresh slice and appends a copy of every value of
the peers map into it. -/
def getPeers (m : PeerMap) : List AddrInfo :=
  m.map Prod.snd

/-- A transport-layer connection event, as dispatched to the notifiee. -/
inductive NetEvent where
  | connected (conn : Conn)
  | disconnected (conn : Conn)
deriving Repr, DecidableEq

/-- Dispatch of one event to the notifiee handlers. -/
def applyEvent (m : PeerMap) : NetEvent → PeerMap
  | .connected conn => notifieeConnected m [] conn
  | .disconnected conn => notifieeDisconnected m [] conn

/-- The registry contents after a trace of connection events. -/
def runEvents (m0 : PeerMap) (tr : List NetEvent) : PeerMap :=
  tr.foldl applyEvent m0

/-- The snapshot `GetPeers()` returns when called after the first `t` events of
a trace have been delivered. -/
def snapshotAt (m0 : PeerMap) (tr : List NetEvent) (t : Nat) : List AddrInfo :=
  getPeers (runEvents m0 (tr.take t))

/-- The remote multiaddress carried by the most recent `Connected` event for
peer `k` in the trace, if any. -/
def lastConnectAddr (tr : List NetEvent) (k : PeerID) : Option Multiaddr :=
  tr.reverse.findSome? fun e =>
    match e with
    | .connected conn => if conn.remotePeer = k then some conn.remoteMultiaddr else none
    | .disconnected _ => none

/-! ## Bootstrap coordinator (`bootstrapDHT`) -/

/-- The log lines the bootstrap loop can emit per entry. -/
inductive LogEntry where
  | invalidBootstrapPeer (entry : String)
  | addrInfoFailed (addr : Multiaddr)
  | connectFailed (p : PeerID)
  | connectedBootstrapPeer (p : PeerID)
deriving Repr, DecidableEq

/-- The two errors `bootstrapDHT` can return:
`"failed to connect to any bootstrap peers"` and
`"failed to bootstrap DHT: %w"`. -/
inductive BootstrapErr where
  | allPeersUnreachable
  | dhtBootstrapFailed
deriving Repr, DecidableEq

/-- Outcomes of the external libp2p operations the bootstrap path calls:
`multiaddr.NewMultiaddr`, `peer.AddrInfoFromP2pAddr`, `host.Connect`,
`dht.Bootstrap`, and the library constant `dht.DefaultBootstrapPeers`. -/
structure NetEnv where
  parseMultiaddr : String → Option Multiaddr
  addrInfoFromP2pAddr : Multiaddr → Option AddrInfo
  connectOK : AddrInfo → Bool
  dhtBootstrapOK : Bool
  defaultBootstrapPeers : List Multiaddr

/-- The custom-peer parse loop: `multiaddr.NewMultiaddr(peerStr)`; on error the
entry is logged (`"Invalid bootstrap peer"`) and skipped with `continue`. -/
def parsePeerAddrs (env : NetEnv) : List String → List Multiaddr × List LogEntry
  | [] => ([], [])
  | s :: rest =>
    let r := parsePeerAddrs env rest
    match env.parseMultiaddr s with
    | none => (r.1, .invalidBootstrapPeer s :: r.2)
    | some a => (a :: r.1, r.2)

/-- One iteration of the connect loop: `peer.AddrInfoFromP2pAddr(addr)` (error
logged, entry skipped), then `n.host.Connect(ctx, *pi)` (failure logged at
Debug, success logged and counted).  Returns the increment to `connectedCount`
and the log lines. -/
def dialOne (env : NetEnv) (a : Multiaddr) : Nat × List LogEntry :=
  match env.addrInfoFromP2pAddr a with
  | none => (0, [.addrInfoFailed a])
  | some pi => if env.connectOK pi then (1, [.connectedBootstrapPeer pi.ID]) else (0, [.connectFailed pi.ID])

/-- The connect loop over all parsed bootstrap addresses. -/
def dialPeers (env : NetEnv) : List Multiaddr → Nat × List LogEntry
  | [] => (0, [])
  | a :: rest =>
    let r := dialOne env a
    let rr := dialPeers env rest
    (r.1 + rr.1, r.2 ++ rr.2)

/-- Which address list the coordinator dials: the parsed custom list when
`len(n.BootstrapPeers) > 0`, else `dht.DefaultBootstrapPeers`. -/
def bootstrapAddrList (env : NetEnv) (custom : List String) : List Multiaddr :=
  if custom.length > 0 then (parsePeerAddrs env custom).1 else env.defaultBootstrapPeers

/-- The parse-phase log lines (empty for the default list). -/
def bootstrapParseLogs (env : NetEnv) (custom : List String) : List LogEntry :=
  if custom.length > 0 then (parsePeerAddrs env custom).2 else []

/-- `bootstrapDHT(ctx)`: choose the peer list, dial every entry, and
afterwards fail with `"failed to connect to any bootstrap peers"` when
`connectedCount == 0`; otherwise run `dht.Bootstrap(ctx)` and wrap its error.
Returns the result together with the log lines emitted. -/
def bootstrapDHT (env : NetEnv) (custom : List String) : Except BootstrapErr Unit × List LogEntry :=
  let addrs := bootstrapAddrList env custom
  let d := dialPeers env addrs
  let logs := bootstrapParseLogs env custom ++ d.2
  if d.1 = 0 then (.error .allPeersUnreachable, logs)
  else if env.dhtBootstrapOK then (.ok (), logs)
  else (.error .dhtBootstrapFailed, logs)

/-- Whether a single bootstrap entry makes it all the way to a successful dial:
it parses as a multiaddr, yields an `AddrInfo`, and `host.Connect` succeeds. -/
def dialOutcome (env : NetEnv) (s : String) : Bool :=
  match env.parseMultiaddr s with
  | none => false
  | some a =>
    match env.addrInfoFromP2pAddr a with
    | none => false
    | some pi => env.connectOK pi

/-! ## Node startup (`Start`) -/

/-- Go `strconv.Atoi`: an optional single sign followed by one or more decimal
digits (the value range check is immaterial here and omitted). -/
def atoi (s : String) : Option Int :=
  match s.toList with
  | [] => none
  | c :: rest =>
    let digits := if c == '-' || c == '+' then rest else c :: rest
    if digits.isEmpty then none
    else if digits.all (fun d => d.isDigit) then
      let n : Nat := digits.foldl (fun acc d => acc * 10 + (d.toNat - 48)) 0
      some (if c == '-' then -(n : Int) else (n : Int))
    else none

/-- The startup steps of `Start`, in source order. -/
inductive StartStep where
  | generateKey
  | newConnManager
  | parsePort
  | newMultiaddr
  | newHost
  | subscribeNotifiee
  | bootstrapDHTStep
deriving Repr, DecidableEq

/-- The fatal errors `Start` can return, one per failing step. -/
inductive StartErr where
  | keyGenFailed
  | connManagerFailed
  | atoiFailed
  | multiaddrFailed
  | hostFailed
deriving Repr, DecidableEq

/-- Outcomes of the external operations `Start` calls:
`crypto.GenerateKeyPair`, `connmgr.NewConnManager`, `os.Getenv("DFS_PORT")`
(empty string when unset), `multiaddr.NewMultiaddr`, `libp2p.New`, and the
network environment used by `bootstrapDHT`. -/
structure StartEnv where
  keyGenOK : Bool
  connMgrOK : Bool
  envPort : String
  multiaddrOK : Bool
  hostOK : Bool
  net : NetEnv

/-- What `Start` did: the steps executed in order, the returned value, the
string handed to `multiaddr.NewMultiaddr` (when reached), the parsed port, and
the result of the non-fatal `bootstrapDHT` call (when reached). -/
structure StartResult where
  trace : List StartStep
  result : Except StartErr Unit
  listenAddrArg : Option String
  port : Option Int
  bootstrapOutcome : Option (Except BootstrapErr Unit)

/-- `portStr := os.Getenv("DFS_PORT"); if portStr == "" { portStr = "9000" }`. -/
def portString (env : StartEnv) : String :=
  if env.envPort = "" then "9000" else env.envPort

/-- `fmt.Sprintf("/ip4/0.0.0.0/tcp/%d", port)`. -/
def listenAddrString (port : Int) : String :=
  "/ip4/0.0.0.0/tcp/" ++ toString port

/-- `Start(ctx)`: generate the identity, build the connection manager, resolve
and parse the port, format the listen address, construct the host, subscribe
the notifiee, then call `bootstrapDHT`; a `bootstrapDHT` error is only logged
(`"DHT bootstrap failed, continuing anyway"`) and `Start` returns nil.  Every
earlier failure returns immediately with that step's error. -/
def start (env : StartEnv) (custom : List String) : StartResult :=
  if env.keyGenOK then
    if env.connMgrOK then
      match atoi (portString env) with
      | some port =>
        let addrStr := listenAddrString port
        if env.multiaddrOK then
          if env.hostOK then
            { trace := [.generateKey, .newConnManager, .parsePort, .newMultiaddr,
                        .newHost, .subscribeNotifiee, .bootstrapDHTStep]
              result := .ok ()
              listenAddrArg := some addrStr
              port := some port
              bootstrapOutcome := some (bootstrapDHT env.net custom).1 }
          else
            { trace := [.generateKey, .newConnManager, .parsePort, .newMultiaddr, .newHost]
              result := .error .hostFailed
              listenAddrArg := some addrStr
              port := some port
              bootstrapOutcome := none }
        else
          { trace := [.generateKey, .newConnManager, .parsePort, .newMultiaddr]
            result := .error .multiaddrFailed
            listenAddrArg := some addrStr
            port := some port
            bootstrapOutcome := none }
      | none =>
        { trace := [.generateKey, .newConnManager, .parsePort]
          result := .error .atoiFailed
          listenAddrArg := none
          port := none
          bootstrapOutcome := none }
    else
      { trace := [.generateKey, .newConnManager]
        result := .error .connManagerFailed
        listenAddrArg := none
        port := none
        bootstrapOutcome := none }
  else
    { trace := [.generateKey]
      result := .error .keyGenFailed
      listenAddrArg := none
      port := none
      bootstrapOutcome := none }

/-- The five fatal startup steps named by the error taxonomy. -/
inductive FatalStep where
  | keyGen
  | connMgr
  | portParse
  | listenAddrRes
  | hostCtor
deriving Repr, DecidableEq

/-- Whether a given fatal step fails under the environment. -/
def stepFails (env : StartEnv) : FatalStep → Bool
  | .keyGen => !env.keyGenOK
  | .connMgr => !env.connMgrOK
  | .portParse => (atoi (portString env)).isNone
  | .listenAddrRes => !env.multiaddrOK
  | .hostCtor => !env.hostOK

/-- Whether every step before the given fatal step succeeds. -/
def priorStepsOK (env : StartEnv) : FatalStep → Bool
  | .keyGen => true
  | .connMgr => env.keyGenOK
  | .portParse => env.keyGenOK && env.connMgrOK
  | .listenAddrRes => env.keyGenOK && env.connMgrOK && (atoi (portString env)).isSome
  | .hostCtor => env.keyGenOK && env.connMgrOK && (atoi (portString env)).isSome && env.multiaddrOK

/-- The error `Start` returns when the given step is the first to fail. -/
def errOfStep : FatalStep → StartErr
  | .keyGen => .keyGenFailed
  | .connMgr => .connManagerFailed
  | .portParse => .atoiFailed
  | .listenAddrRes => .multiaddrFailed
  | .hostCtor => .hostFailed

/-- The steps `Start` executes up to and including the given failing step. -/
def traceOfStep : FatalStep → List StartStep
  | .keyGen => [.generateKey]
  | .connMgr => [.generateKey, .newConnManager]
  | .portParse => [.generateKey, .newConnManager, .parsePort]
  | .listenAddrRes => [.generateKey, .newConnManager, .parsePort, .newMultiaddr]
  | .hostCtor => [.generateKey, .newConnManager, .parsePort, .newMultiaddr, .newHost]

/-! ## Earlier-iteration constructor (`NewP2PNetworking` with options) -/

/-- The option struct `P2PNetworkingOpts` of the iteration that takes an
explicit `Port` option. -/
structure P2PNetworkingOptsA where
  Port : Int
  EnableDHT : Bool
  BootstrapPeers : List String
deriving Repr, DecidableEq

/-- `NewP2PNetworking(opts)`: `if opts.Port == 0 { opts.Port = 9000 }`; the
node keeps the (normalized) options, which is all this claim needs. -/
def newP2PNetworkingA (opts : P2PNetworkingOptsA) : P2PNetworkingOptsA :=
  if opts.Port = 0 then { opts with Port := 9000 } else opts

/-! ## Shutdown (`Close`) -/

/-- A handle to an external closable resource (the libp2p host or the DHT).
Modelled from the spec: the host's and routing table's own close operations
are library code outside the repository; the spec requires them idempotent
(a second close returns no error), so a close marks the handle closed,
reports `failClose` as its error the first time, and is a no-op afterwards. -/
structure Handle where
  closed : Bool
  failClose : Bool
deriving Repr, DecidableEq

/-- One close call on a handle: (did it return an error, updated handle). -/
def closeHandle (h : Handle) : Bool × Handle :=
  if h.closed then (false, h)
  else (h.failClose, { h with closed := true })

/-- The node's closable resources: `n.dht` and `n.host`, each possibly nil
when `Start` never ran or failed early. -/
structure NodeState where
  dht : Option Handle
  host : Option Handle
deriving Repr, DecidableEq

/-- The close attempts `Close` can make, in order. -/
inductive CloseOp where
  | closeDHT
  | closeHost
deriving Repr, DecidableEq

/-- The only error `Close` returns: `"failed to close host: %w"` (a DHT close
error is logged at Warn and dropped). -/
inductive CloseErr where
  | hostCloseFailed
deriving Repr, DecidableEq

/-- `Close()`: if `n.dht != nil` close it (error only logged), then if
`n.host != nil` close it (error returned), else return nil.  Returns the
error, the updated state, and the close attempts made in order. -/
def p2pClose (n : NodeState) : Option CloseErr × NodeState × List CloseOp :=
  match n.dht with
  | some d =>
    let rd := closeHandle d
    let n1 : NodeState := { n with dht := some rd.2 }
    match n1.host with
    | some hh =>
      let rh := closeHandle hh
      ((if rh.1 then some CloseErr.hostCloseFailed else none),
        { n1 with host := some rh.2 }, [CloseOp.closeDHT, CloseOp.closeHost])
    | none => (none, n1, [CloseOp.closeDHT])
  | none =>
    match n.host with
    | some hh =>
      let rh := closeHandle hh
      ((if rh.1 then some CloseErr.hostCloseFailed else none),
        { n with host := some rh.2 }, [CloseOp.closeHost])
    | none => (none, n, [])

/-! ## Concrete witness environments -/

/-- Environment in which no bootstrap entry parses. -/
def envAllFail : NetEnv :=
  ⟨fun _ => none, fun _ => none, fun _ => false, true, []⟩

/-- Environment in which every entry except the literal `"bad"` parses, every
parsed entry yields an `AddrInfo`, and every dial succeeds. -/
def envOneGood : NetEnv :=
  ⟨fun s => if s == "bad" then none else some s,
   fun a => some ⟨a, [a]⟩, fun _ => true, true, []⟩

/-- Environment in which identity generation fails and everything else would
succeed. -/
def envKeyFail : StartEnv :=
  ⟨false, true, "", true, true, envAllFail⟩

/-- Network environment in which every entry parses and dials but the DHT
bootstrap round fails. -/
def envDHTFail : NetEnv :=
  ⟨fun s => some s, fun a => some ⟨a, [a]⟩, fun _ => true, false, []⟩

/-- Start environment whose fatal steps all succeed, over `envDHTFail`. -/
def envStartDHTFail : StartEnv :=
  ⟨true, true, "", true, true, envDHTFail⟩

/-- Start environment with the port variable unset. -/
def envPortUnset : StartEnv :=
  ⟨true, true, "", true, true, envAllFail⟩

/-- Start environment with an unparseable port variable. -/
def envPortJunk : StartEnv :=
  ⟨true, true, "not-a-number", true, true, envAllFail⟩

/-! ## Registry lemmas -/

theorem mapLookup_delete_self (m : PeerMap) (k : PeerID) :
    mapLookup k (mapDelete m k) = none := by
  induction m with
  | nil => rfl
  | cons p rest ih =>
    simp only [mapDelete, List.filter_cons] at *
    by_cases h : p.1 = k
    · simpa [h] using ih
    · simpa [mapLookup, h] using ih

theorem mapLookup_delete_ne (m : PeerMap) (k k' : PeerID) (h : k' ≠ k) :
    mapLookup k' (mapDelete m k) = mapLookup k' m := by
  induction m with
  | nil => rfl
  | cons p rest ih =>
    simp only [mapDelete, List.filter_cons] at *
    by_cases hp : p.1 = k
    · simp [hp, mapLookup, Ne.symm h, ih]
    · simp [hp, mapLookup, ih]

theorem mapLookup_insert_self (m : PeerMap) (k : PeerID) (v : AddrInfo) :
    mapLookup k (mapInsert m k v) = some v := by
  simp [mapInsert, mapLookup]

theorem mapLookup_insert_ne (m : PeerMap) (k k' : PeerID) (v : AddrInfo) (h : k' ≠ k) :
    mapLookup k' (mapInsert m k v) = mapLookup k' m := by
  rw [mapInsert]
  show (if k = k' then some v else mapLookup k' (mapDelete m k)) = mapLookup k' m
  rw [if_neg (fun hh => h hh.symm)]
  exact mapLookup_delete_ne m k k' h

theorem mem_mapDelete (m : PeerMap) (k : PeerID) (p : PeerID × AddrInfo) :
    p ∈ mapDelete m k ↔ p ∈ m ∧ p.1 ≠ k := by
  simp [mapDelete, List.mem_filter]

theorem mapDelete_mapInsert (m : PeerMap) (k : PeerID) (v : AddrInfo) :
    mapDelete (mapInsert m k v) k = mapDelete m k := by
  rw [mapInsert]
  show mapDelete ((k, v) :: mapDelete m k) k = mapDelete m k
  rw [mapDelete, List.filter_cons]
  simp [mapDelete, List.filter_filter]

/-- Claim C3: in the peer registry, `upsert(id, r)` followed by `remove(id)`
leaves no record for `id` in the snapshot, and `upsert(id, r1)` followed by
`upsert(id, r2)` leaves exactly one record for `id`, equal to `r2` (last
writer wins).  The hypothesis `hm` is the registry invariant (claim C10) that
every stored record's `ID` equals its key, which the event handlers maintain. -/
theorem registry_upsert_remove_semantics (m : PeerMap) (id : PeerID) (r r1 r2 : AddrInfo)
    (hm : ∀ p ∈ m, p.2.ID = p.1) (h2 : r2.ID = id) :
    mapLookup id (mapDelete (mapInsert m id r) id) = none
    ∧ (∀ q ∈ getPeers (mapDelete (mapInsert m id r) id), q.ID ≠ id)
    ∧ mapLookup id (mapInsert (mapInsert m id r1) id r2) = some r2
    ∧ (getPeers (mapInsert (mapInsert m id r1) id r2)).filter (fun q => q.ID == id) = [r2] := by
  refine ⟨mapLookup_delete_self _ _, ?_, mapLookup_insert_self _ _ _, ?_⟩
  · intro q hq
    simp only [getPeers, List.mem_map] at hq
    obtain ⟨p, hp, rfl⟩ := hq
    rw [mem_mapDelete] at hp
    rcases hp with ⟨hpin, hpne⟩
    rw [mapInsert] at hpin
    rcases List.mem_cons.mp hpin with hhead | htail
    · exact absurd (by rw [hhead]) hpne
    · rw [mem_mapDelete] at htail
      rw [hm p htail.1]
      exact htail.2
  · have hins : mapInsert (mapInsert m id r1) id r2 = (id, r2) :: mapDelete m id := by
      rw [mapInsert, mapDelete_mapInsert]
    rw [hins]
    have htail : ((mapDelete m id).map Prod.snd).filter (fun q => q.ID == id) = [] := by
      rw [List.filter_eq_nil_iff]
      intro q hq
      simp only [List.mem_map] at hq
      obtain ⟨p, hp, rfl⟩ := hq
      rw [mem_mapDelete] at hp
      simp [hm p hp.1, hp.2]
    simp [getPeers, List.filter_cons, h2, htail]

/-- Claim C7: the `Connected` handler unconditionally upserts the record
`{ID: remotePeer, Addrs: [remoteMultiaddr]}`, and the `Disconnected` handler
unconditionally removes the remote peer's entry — including when the network's
live-connection list still holds another connection to that same peer (the
handler never consults the `net` argument; no reference counting). -/
theorem notifiee_handlers_unconditional (m : PeerMap) (liveConns : List Conn)
    (conn : Conn) (a2 : Multiaddr) :
    mapLookup conn.remotePeer (notifieeConnected m liveConns conn)
      = some ⟨conn.remotePeer, [conn.remoteMultiaddr]⟩
    ∧ mapLookup conn.remotePeer (notifieeDisconnected m liveConns conn) = none
    ∧ mapLookup conn.remotePeer
        (notifieeDisconnected m (Conn.mk conn.remotePeer a2 :: liveConns) conn) = none :=
  ⟨mapLookup_insert_self _ _ _, mapLookup_delete_self _ _, mapLookup_delete_self _ _⟩

theorem runEvents_append (m0 : PeerMap) (tr : List NetEvent) (e : NetEvent) :
    runEvents m0 (tr ++ [e]) = applyEvent (runEvents m0 tr) e := by
  simp [runEvents, List.foldl_append]

/-- Claim C8: `GetPeers` returns a point-in-time copy: the sequence it returns
after the first `t` events holds exactly the records present at that moment,
and delivering further events does not change the sequence already returned. -/
theorem snapshot_point_in_time (m0 : PeerMap) (tr more : List NetEvent) (t : Nat)
    (ht : t ≤ tr.length) :
    snapshotAt m0 (tr ++ more) t = snapshotAt m0 tr t
    ∧ (∀ q, q ∈ getPeers (runEvents m0 tr) ↔ ∃ k, (k, q) ∈ runEvents m0 tr) := by
  constructor
  · simp [snapshotAt, List.take_append_of_le_length ht]
  · intro q
    simp only [getPeers, List.mem_map]
    constructor
    · rintro ⟨p, hp, rfl⟩
      exact ⟨p.1, by simpa using hp⟩
    · rintro ⟨k, hk⟩
      exact ⟨(k, q), hk, rfl⟩

/-- Witness for claim C8 at a concrete trace. -/
theorem snapshot_point_in_time_witness :
    snapshotAt [] ([NetEvent.connected ⟨"p", "a"⟩] ++ [NetEvent.disconnected ⟨"p", "a"⟩]) 1
      = snapshotAt [] [NetEvent.connected ⟨"p", "a"⟩] 1
    ∧ (∀ q, q ∈ getPeers (runEvents [] [NetEvent.connected ⟨"p", "a"⟩])
        ↔ ∃ k, (k, q) ∈ runEvents [] [NetEvent.connected ⟨"p", "a"⟩]) :=
  snapshot_point_in_time [] [NetEvent.connected ⟨"p", "a"⟩]
    [NetEvent.disconnected ⟨"p", "a"⟩] 1 (by decide)

/-- Claim C10: registry invariant maintained by the event handlers: every
stored record's `ID` equals its key, and its address list is exactly the
singleton holding the remote address of the most recent `Connected` event for
that peer. -/
theorem registry_invariant (tr : List NetEvent) (k : PeerID) (r : AddrInfo)
    (h : mapLookup k (runEvents [] tr) = some r) :
    r.ID = k ∧ ∃ a, lastConnectAddr tr k = some a ∧ r.Addrs = [a] := by
  induction tr using List.reverseRecOn generalizing r with
  | nil => simp [runEvents, mapLookup] at h
  | append_singleton tr e ih =>
    rw [runEvents_append] at h
    cases e with
    | connected c =>
      by_cases hk : c.remotePeer = k
      · subst hk
        rw [applyEvent, notifieeConnected, mapLookup_insert_self] at h
        obtain rfl : (⟨c.remotePeer, [c.remoteMultiaddr]⟩ : AddrInfo) = r := by
          exact Option.some.inj h
        refine ⟨rfl, c.remoteMultiaddr, ?_, rfl⟩
        simp [lastConnectAddr, List.reverse_append, List.findSome?]
      · rw [applyEvent, notifieeConnected,
          mapLookup_insert_ne _ _ _ _ (Ne.symm hk)] at h
        obtain ⟨hid, a, hla, haddrs⟩ := ih r h
        refine ⟨hid, a, ?_, haddrs⟩
        rw [lastConnectAddr] at hla ⊢
        simpa [List.reverse_append, List.findSome?, hk] using hla
    | disconnected c =>
      by_cases hk : c.remotePeer = k
      · subst hk
        rw [applyEvent, notifieeDisconnected, mapLookup_delete_self] at h
        exact absurd h (by simp)
      · rw [applyEvent, notifieeDisconnected,
          mapLookup_delete_ne _ _ _ (Ne.symm hk)] at h
        obtain ⟨hid, a, hla, haddrs⟩ := ih r h
        refine ⟨hid, a, ?_, haddrs⟩
        rw [lastConnectAddr] at hla ⊢
        simpa [List.reverse_append, List.findSome?] using hla

/-- Witness for claim C10 at a concrete trace. -/
theorem registry_invariant_witness :
    (AddrInfo.mk "p" ["a"]).ID = "p"
    ∧ ∃ a, lastConnectAddr [NetEvent.connected ⟨"p", "a"⟩] "p" = some a
        ∧ (AddrInfo.mk "p" ["a"]).Addrs = [a] :=
  registry_invariant [NetEvent.connected ⟨"p", "a"⟩] "p" ⟨"p", ["a"]⟩ (by decide)

/-- Witness for claim C3 at a concrete registry. -/
theorem registry_upsert_remove_semantics_witness :
    mapLookup "p" (mapDelete (mapInsert [] "p" ⟨"p", ["a"]⟩) "p") = none
    ∧ (∀ q ∈ getPeers (mapDelete (mapInsert [] "p" ⟨"p", ["a"]⟩) "p"), q.ID ≠ "p")
    ∧ mapLookup "p" (mapInsert (mapInsert [] "p" ⟨"p", ["a1"]⟩) "p" ⟨"p", ["a2"]⟩)
        = some ⟨"p", ["a2"]⟩
    ∧ (getPeers (mapInsert (mapInsert [] "p" ⟨"p", ["a1"]⟩) "p" ⟨"p", ["a2"]⟩)).filter
        (fun q => q.ID == "p") = [(⟨"p", ["a2"]⟩ : AddrInfo)] :=
  registry_upsert_remove_semantics [] "p" ⟨"p", ["a"]⟩ ⟨"p", ["a1"]⟩ ⟨"p", ["a2"]⟩
    (by simp) (by rfl)

/-! ## Bootstrap lemmas -/

theorem dialPeers_count_parse (env : NetEnv) (peers : List String) :
    (dialPeers env (parsePeerAddrs env peers).1).1 = peers.countP (dialOutcome env) := by
  induction peers with
  | nil => rfl
  | cons s rest ih =>
    simp only [parsePeerAddrs]
    cases hp : env.parseMultiaddr s with
    | none =>
      simp [List.countP_cons, dialOutcome, hp, ih]
    | some a =>
      cases hai : env.addrInfoFromP2pAddr a with
      | none =>
        simp [dialPeers, dialOne, hai, List.countP_cons, dialOutcome, hp, ih]
      | some pi =>
        by_cases hc : env.connectOK pi <;>
          simp [dialPeers, dialOne, hai, hc, List.countP_cons, dialOutcome, hp, ih]
        all_goals omega

theorem parsePeerAddrs_append (env : NetEnv) (xs ys : List String) :
    parsePeerAddrs env (xs ++ ys)
      = ((parsePeerAddrs env xs).1 ++ (parsePeerAddrs env ys).1,
         (parsePeerAddrs env xs).2 ++ (parsePeerAddrs env ys).2) := by
  induction xs with
  | nil => simp [parsePeerAddrs]
  | cons s rest ih =>
    cases hp : env.parseMultiaddr s <;> simp [parsePeerAddrs, hp, ih]

/-- Claim C1: a non-empty bootstrap list in which every entry fails to parse
or fails to dial (zero successful dials) makes `bootstrapDHT` return the
`"failed to connect to any bootstrap peers"` error rather than succeed. -/
theorem bootstrap_all_unreachable_fails (env : NetEnv) (peers : List String)
    (hne : peers ≠ [])
    (hall : ∀ s ∈ peers, dialOutcome env s = false) :
    (bootstrapDHT env peers).1 = Except.error BootstrapErr.allPeersUnreachable := by
  have hlen : peers.length > 0 := List.length_pos.mpr hne
  have hcnt : (dialPeers env (bootstrapAddrList env peers)).1 = 0 := by
    rw [bootstrapAddrList, if_pos hlen, dialPeers_count_parse]
    exact List.countP_eq_zero.mpr (by intro s hs; simp [hall s hs])
  simp [bootstrapDHT, hcnt]

/-- Witness for claim C1 at a concrete peer list. -/
theorem bootstrap_all_unreachable_fails_witness :
    (bootstrapDHT envAllFail ["badpeer"]).1 = Except.error BootstrapErr.allPeersUnreachable :=
  bootstrap_all_unreachable_fails envAllFail ["badpeer"] (by decide) (by decide)

/-- Claim C2: a malformed entry in the bootstrap list is logged
(`"Invalid bootstrap peer"`) and skipped; the remaining entries are still
processed and the outcome is exactly the outcome for the list without the
malformed entry, so no fatal error arises solely because of it; with at least
one valid and dialable entry present, the all-peers-unreachable failure does
not occur. -/
theorem bootstrap_skips_malformed (env : NetEnv) (pre post : List String) (bad : String)
    (hbad : env.parseMultiaddr bad = none)
    (hv : ∃ s, s ∈ pre ++ post ∧ dialOutcome env s = true) :
    LogEntry.invalidBootstrapPeer bad ∈ (bootstrapDHT env (pre ++ bad :: post)).2
    ∧ (parsePeerAddrs env (pre ++ bad :: post)).1 = (parsePeerAddrs env (pre ++ post)).1
    ∧ (bootstrapDHT env (pre ++ bad :: post)).1 = (bootstrapDHT env (pre ++ post)).1
    ∧ (bootstrapDHT env (pre ++ bad :: post)).1 ≠ Except.error BootstrapErr.allPeersUnreachable := by
  obtain ⟨s0, hs0, hd0⟩ := hv
  have hlen1 : (pre ++ bad :: post).length > 0 := by simp
  have hlen2 : (pre ++ post).length > 0 :=
    List.length_pos.mpr (List.ne_nil_of_mem hs0)
  have hparse : parsePeerAddrs env (bad :: post)
      = ((parsePeerAddrs env post).1,
         LogEntry.invalidBootstrapPeer bad :: (parsePeerAddrs env post).2) := by
    simp [parsePeerAddrs, hbad]
  have hfst : (parsePeerAddrs env (pre ++ bad :: post)).1
      = (parsePeerAddrs env (pre ++ post)).1 := by
    rw [parsePeerAddrs_append, parsePeerAddrs_append, hparse]
  have hmem : LogEntry.invalidBootstrapPeer bad ∈ (parsePeerAddrs env (pre ++ bad :: post)).2 := by
    rw [parsePeerAddrs_append, hparse]
    simp
  have hcnt : (dialPeers env (bootstrapAddrList env (pre ++ bad :: post))).1 ≠ 0 := by
    rw [bootstrapAddrList, if_pos hlen1, dialPeers_count_parse]
    have : 0 < (pre ++ bad :: post).countP (dialOutcome env) := by
      refine List.countP_pos_iff.mpr ⟨s0, ?_, hd0⟩
      rcases List.mem_append.mp hs0 with h | h
      · exact List.mem_append.mpr (Or.inl h)
      · exact List.mem_append.mpr (Or.inr (List.mem_cons_of_mem _ h))
    omega
  refine ⟨?_, hfst, ?_, ?_⟩
  · rw [bootstrapDHT]
    simp only [bootstrapParseLogs, if_pos hlen1]
    have := hmem
    by_cases h0 : (dialPeers env (bootstrapAddrList env (pre ++ bad :: post))).1 = 0 <;>
      by_cases hok : env.dhtBootstrapOK <;>
      simp [h0, hok, hmem]
  · rw [bootstrapDHT, bootstrapDHT]
    simp only [bootstrapAddrList, if_pos hlen1, if_pos hlen2, hfst]
    by_cases h0 : (dialPeers env (parsePeerAddrs env (pre ++ post)).1).1 = 0 <;>
      by_cases hok : env.dhtBootstrapOK <;> simp [h0, hok]
  · rw [bootstrapDHT]
    simp only [bootstrapAddrList, if_pos hlen1] at hcnt ⊢
    by_cases hok : env.dhtBootstrapOK <;> simp [hcnt, hok]

/-- Witness for claim C2 at a concrete peer list. -/
theorem bootstrap_skips_malformed_witness :
    LogEntry.invalidBootstrapPeer "bad" ∈ (bootstrapDHT envOneGood (["good"] ++ "bad" :: [])).2
    ∧ (parsePeerAddrs envOneGood (["good"] ++ "bad" :: [])).1
        = (parsePeerAddrs envOneGood (["good"] ++ [])).1
    ∧ (bootstrapDHT envOneGood (["good"] ++ "bad" :: [])).1
        = (bootstrapDHT envOneGood (["good"] ++ [])).1
    ∧ (bootstrapDHT envOneGood (["good"] ++ "bad" :: [])).1
        ≠ Except.error BootstrapErr.allPeersUnreachable :=
  bootstrap_skips_malformed envOneGood ["good"] [] "bad" (by decide)
    ⟨"good", by decide⟩

/-! ## Startup claims -/

/-- Claim C5: when identity generation, connection-manager construction,
listen-address resolution (port parse or multiaddr construction), or host
construction is the first step to fail, `Start` returns that step's error, the
executed steps stop exactly at the failing step, and the node never reaches
`Running` (in particular the bootstrap step is never run). -/
theorem start_fatal_aborts (env : StartEnv) (custom : List String) (s : FatalStep)
    (h1 : priorStepsOK env s = true) (h2 : stepFails env s = true) :
    (start env custom).result = Except.error (errOfStep s)
    ∧ (start env custom).trace = traceOfStep s
    ∧ StartStep.bootstrapDHTStep ∉ (start env custom).trace := by
  cases s with
  | keyGen =>
    have hk : env.keyGenOK = false := by simpa [stepFails] using h2
    simp [start, hk, errOfStep, traceOfStep]
  | connMgr =>
    have hk : env.keyGenOK = true := by simpa [priorStepsOK] using h1
    have hc : env.connMgrOK = false := by simpa [stepFails] using h2
    simp [start, hk, hc, errOfStep, traceOfStep]
  | portParse =>
    obtain ⟨hk, hc⟩ : env.keyGenOK = true ∧ env.connMgrOK = true := by
      simpa [priorStepsOK, Bool.and_eq_true] using h1
    have hp : atoi (portString env) = none := by
      simpa [stepFails, Option.isNone_iff_eq_none] using h2
    simp [start, hk, hc, hp, errOfStep, traceOfStep]
  | listenAddrRes =>
    obtain ⟨⟨hk, hc⟩, hs⟩ :
        (env.keyGenOK = true ∧ env.connMgrOK = true) ∧ (atoi (portString env)).isSome = true := by
      simpa [priorStepsOK, Bool.and_eq_true, and_assoc] using h1
    obtain ⟨p, hp⟩ := Option.isSome_iff_exists.mp hs
    have hmk : env.multiaddrOK = false := by simpa [stepFails] using h2
    simp [start, hk, hc, hp, hmk, errOfStep, traceOfStep]
  | hostCtor =>
    obtain ⟨⟨⟨hk, hc⟩, hs⟩, hmk⟩ :
        ((env.keyGenOK = true ∧ env.connMgrOK = true) ∧ (atoi (portString env)).isSome = true)
          ∧ env.multiaddrOK = true := by
      simpa [priorStepsOK, Bool.and_eq_true, and_assoc] using h1
    obtain ⟨p, hp⟩ := Option.isSome_iff_exists.mp hs
    have hh : env.hostOK = false := by simpa [stepFails] using h2
    simp [start, hk, hc, hp, hmk, hh, errOfStep, traceOfStep]

/-- Witness for claim C5: identity generation fails. -/
theorem start_fatal_aborts_witness :
    (start envKeyFail []).result = Except.error (errOfStep FatalStep.keyGen)
    ∧ (start envKeyFail []).trace = traceOfStep FatalStep.keyGen
    ∧ StartStep.bootstrapDHTStep ∉ (start envKeyFail []).trace :=
  start_fatal_aborts envKeyFail [] FatalStep.keyGen (by decide) (by decide)

/-- Claim C6: when every fatal startup step succeeds and `bootstrapDHT` fails
at the routing-table bootstrap step (which can only happen after at least one
dial succeeded), `Start` still returns success: the failure is recorded but
non-fatal. -/
theorem start_tolerates_dht_bootstrap_failure (env : StartEnv) (custom : List String)
    (p : Int)
    (h1 : env.keyGenOK = true) (h2 : env.connMgrOK = true)
    (h3 : atoi (portString env) = some p)
    (h4 : env.multiaddrOK = true) (h5 : env.hostOK = true)
    (hb : (bootstrapDHT env.net custom).1 = Except.error BootstrapErr.dhtBootstrapFailed) :
    (start env custom).result = Except.ok ()
    ∧ (start env custom).bootstrapOutcome
        = some (Except.error BootstrapErr.dhtBootstrapFailed)
    ∧ (dialPeers env.net (bootstrapAddrList env.net custom)).1 ≠ 0 := by
  refine ⟨?_, ?_, ?_⟩
  · simp [start, h1, h2, h3, h4, h5]
  · simp [start, h1, h2, h3, h4, h5, hb]
  · intro h0
    rw [bootstrapDHT] at hb
    simp [h0] at hb

/-- Witness for claim C6 at a concrete peer list. -/
theorem start_tolerates_dht_bootstrap_failure_witness :
    (start envStartDHTFail ["peer1"]).result = Except.ok ()
    ∧ (start envStartDHTFail ["peer1"]).bootstrapOutcome
        = some (Except.error BootstrapErr.dhtBootstrapFailed)
    ∧ (dialPeers envStartDHTFail.net (bootstrapAddrList envStartDHTFail.net ["peer1"])).1 ≠ 0 :=
  start_tolerates_dht_bootstrap_failure envStartDHTFail ["peer1"] 9000
    rfl rfl (by decide) rfl rfl rfl

/-- Claim C9: a zero `Port` option is replaced by 9000 by the constructor (and
formats to the all-interfaces address on port 9000); an unset `DFS_PORT`
environment variable makes `Start` hand `multiaddr.NewMultiaddr` the
all-interfaces address on port 9000; an unparseable configured port value
makes `Start` return an error before the host-construction step runs. -/
theorem port_defaults_and_parse_failure (opts : P2PNetworkingOptsA)
    (env1 env2 : StartEnv) (peers1 peers2 : List String)
    (ha1 : env1.keyGenOK = true) (ha2 : env1.connMgrOK = true) (ha3 : env1.envPort = "")
    (hb1 : env2.keyGenOK = true) (hb2 : env2.connMgrOK = true)
    (hb3 : atoi (portString env2) = none) :
    (newP2PNetworkingA { opts with Port := 0 }).Port = 9000
    ∧ listenAddrString (newP2PNetworkingA { opts with Port := 0 }).Port = "/ip4/0.0.0.0/tcp/9000"
    ∧ (start env1 peers1).listenAddrArg = some "/ip4/0.0.0.0/tcp/9000"
    ∧ (start env2 peers2).result = Except.error StartErr.atoiFailed
    ∧ StartStep.newHost ∉ (start env2 peers2).trace := by
  have hport : (newP2PNetworkingA { opts with Port := 0 }).Port = 9000 := by
    simp [newP2PNetworkingA]
  refine ⟨hport, ?_, ?_, ?_, ?_⟩
  · rw [hport]
    rfl
  · have hp : portString env1 = "9000" := by simp [portString, ha3]
    have h9 : atoi "9000" = some 9000 := by rfl
    have hl : listenAddrString 9000 = "/ip4/0.0.0.0/tcp/9000" := by rfl
    by_cases hm : env1.multiaddrOK <;> by_cases hh : env1.hostOK <;>
      simp [start, ha1, ha2, hp, h9, hm, hh, hl]
  · simp [start, hb1, hb2, hb3]
  · simp [start, hb1, hb2, hb3]

/-- Witness for claim C9 at concrete configurations. -/
theorem port_defaults_and_parse_failure_witness :
    (newP2PNetworkingA { Port := 0, EnableDHT := false, BootstrapPeers := [] }).Port = 9000
    ∧ listenAddrString
        (newP2PNetworkingA { Port := 0, EnableDHT := false, BootstrapPeers := [] }).Port
        = "/ip4/0.0.0.0/tcp/9000"
    ∧ (start envPortUnset []).listenAddrArg = some "/ip4/0.0.0.0/tcp/9000"
    ∧ (start envPortJunk []).result = Except.error StartErr.atoiFailed
    ∧ StartStep.newHost ∉ (start envPortJunk []).trace :=
  port_defaults_and_parse_failure ⟨0, false, []⟩ envPortUnset envPortJunk [] []
    rfl rfl rfl rfl rfl (by decide)

/-! ## Close claim -/

theorem closeHandle_closed (x : Handle) : ((closeHandle x).2).closed = true := by
  by_cases h : x.closed <;> simp [closeHandle, h]

theorem closeHandle_again (x : Handle) :
    closeHandle (closeHandle x).2 = (false, (closeHandle x).2) := by
  have hy := closeHandle_closed x
  generalize (closeHandle x).2 = y at hy ⊢
  simp [closeHandle, hy]

/-- Claim C4: `Close` attempts the routing-table close first and the host
close second, and an error from either never prevents the other from being
attempted (the attempt list is always `[closeDHT, closeHost]` when both
resources exist, whatever the handles' error behaviour); `Close` on a node
that never reached `Running` (no DHT, no host) returns no error; and a second
`Close` after any first `Close` returns no error, for every starting state. -/
theorem close_idempotent_ordered (n : NodeState) (d hh : Handle) :
    (p2pClose ⟨some d, some hh⟩).2.2 = [CloseOp.closeDHT, CloseOp.closeHost]
    ∧ (p2pClose ⟨none, none⟩).1 = none
    ∧ (p2pClose (p2pClose n).2.1).1 = none := by
  refine ⟨by simp [p2pClose], rfl, ?_⟩
  obtain ⟨dOpt, hOpt⟩ := n
  cases dOpt <;> cases hOpt <;>
    simp [p2pClose, closeHandle_again]

end DFS
